import Mathlib

/-!
Shallow embedding of the Weather-Analyzer core (src/main.py): the record
store backed by one JSON file, the deduplication policy
(`_is_duplicate_entry`), the ingestion pipeline (`fetch_and_log_weather`)
and the query operations (`get_all_logs`, `get_city_avg_temp`,
`get_hottest_coldest_cities`, the filter-and-sort prefix of `plot_temp`).

Modelling conventions:
* Python strings are Lean `String`s; the Python string operations used by
  the source (`str.lower`, `str.strip`, `str.replace`, lexicographic
  comparison) are modelled explicitly over `List Char` so that everything
  kernel-evaluates.
* `datetime.fromisoformat` is a parameter `parseIso : List Char → Option ℤ`
  (UTC instants as integers, seconds); `none` models a raised `ValueError`.
  `timedelta(hours=n)` is `hoursToSec n`.
* The JSON data file is a `FileState`: `bad` models a file that is absent,
  empty, or whose contents `json.load` cannot parse (every such state makes
  `open`/`json.load` raise); `good data` models a JSON array of records.
  A record missing its `utc_timestamp` field is modelled by
  `utc_timestamp = none` (subscripting it raises `KeyError`).
* Temperatures are exact rationals; Python's `round(x, 2)` is `round2`.
* A Python function that can raise to its caller returns an `Option`,
  with `none` for the escaping exception.
-/

/-- One stored weather record (one element of the JSON array written by
`_save_weather_data`).  `utc_timestamp = none` models a record whose
`utc_timestamp` key is missing. -/
structure Entry where
  city : String
  temperature : ℚ
  description : String
  humidity : ℤ
  utc_timestamp : Option String
  local_timestamp : String
deriving DecidableEq, Repr

/-- Models CPython `str.lower` on one character (ASCII case folding, the
only case exercised by this program's city names). -/
def charLower (c : Char) : Char :=
  if 65 ≤ c.toNat ∧ c.toNat ≤ 90 then Char.ofNat (c.toNat + 32) else c

/-- Models Python `s.lower()`, as the character list it compares by. -/
def lowerData (s : String) : List Char := s.data.map charLower

/-- Models Python whitespace for `str.strip` (the characters relevant
here). -/
def isPySpace (c : Char) : Bool :=
  c = ' ' ∨ c = '\t' ∨ c = '\n' ∨ c = '\r'

/-- Models Python `s.strip()`. -/
def pyStrip (s : String) : String :=
  ⟨((s.data.dropWhile isPySpace).reverse.dropWhile isPySpace).reverse⟩

/-- Models Python `s.replace('Z', '+00:00')` as used on timestamps. -/
def replaceZ : List Char → List Char
  | [] => []
  | c :: cs =>
      if c = 'Z' then '+' :: '0' :: '0' :: ':' :: '0' :: '0' :: replaceZ cs
      else c :: replaceZ cs

/-- Models CPython string comparison `a <= b`: lexicographic by code
point. -/
def lexLe : List Char → List Char → Bool
  | [], _ => true
  | _ :: _, [] => false
  | a :: as, b :: bs =>
      if a.toNat < b.toNat then true
      else if b.toNat < a.toNat then false
      else lexLe as bs

/-- `timedelta(hours=n)` in seconds. -/
def hoursToSec (n : ℤ) : ℤ := n * 3600

/-- `datetime.fromisoformat(s.replace('Z', '+00:00'))` for the stored
string `s`; `parseIso` models `datetime.fromisoformat` itself (`none` =
raised `ValueError`). -/
def entryTime (parseIso : List Char → Option ℤ) (s : String) : Option ℤ :=
  parseIso (replaceZ s.data)

/-- The observed-at instant of a stored record, as the scans compute it:
`entry['utc_timestamp']` (raising `KeyError` when the field is missing)
then `datetime.fromisoformat` (raising `ValueError` when unparsable).
Both raises are modelled by `none`, since every caller treats them
alike. -/
def entryT (parseIso : List Char → Option ℤ) (e : Entry) : Option ℤ :=
  e.utc_timestamp.bind (entryTime parseIso)

/-- The persistence medium (the JSON data file).  `bad`: absent, empty or
unparsable, so reading it raises; `good data`: a JSON array of records. -/
inductive FileState where
  | bad : FileState
  | good : List Entry → FileState
deriving DecidableEq, Repr

/-- The record list `json.load` would return, with `[]` for an unreadable
store (the `except: data = []` convention of the source). -/
def dataOf : FileState → List Entry
  | .bad => []
  | .good data => data

/-- The loop body of `_is_duplicate_entry`: scan the loaded records; a
record whose city matches case-insensitively but whose `utc_timestamp` is
missing or unparsable raises, and the surrounding `except: pass` turns
that into `return False` (the scan stops there). -/
def dupScan (parseIso : List Char → Option ℤ) (cityLower : List Char)
    (cutoff : ℤ) : List Entry → Bool
  | [] => false
  | e :: rest =>
      if lowerData e.city = cityLower then
        match entryT parseIso e with
        | none => false
        | some t => if cutoff < t then true else dupScan parseIso cityLower cutoff rest
      else dupScan parseIso cityLower cutoff rest

/-- `WeatherLogger._is_duplicate_entry(city, current_time)`: cutoff is
`current_time - timedelta(hours=2)`; a bad store makes `open`/`json.load`
raise, which the `except` turns into `False`. -/
def is_duplicate_entry (parseIso : List Char → Option ℤ) (file : FileState)
    (city : String) (current_time : ℤ) : Bool :=
  match file with
  | .bad => false
  | .good data => dupScan parseIso (lowerData city) (current_time - hoursToSec 2) data

/-- Sort key of `get_all_logs`: the raw `utc_timestamp` string (`getD ""`
is only reached when the field is present, see `get_all_logs`). -/
def tsKey (e : Entry) : List Char := (e.utc_timestamp.getD "").data

/-- The descending order used by `sorted(..., key=..., reverse=True)`:
`a` may precede `b` iff `b`'s key is `≤` `a`'s key. -/
def descTs (a b : Entry) : Prop := lexLe (tsKey b) (tsKey a) = true

instance : DecidableRel descTs := fun a b => by unfold descTs; infer_instance

/-- The ascending order used by `city_logs.sort(key=...)`. -/
def ascTs (a b : Entry) : Prop := lexLe (tsKey a) (tsKey b) = true

instance : DecidableRel ascTs := fun a b => by unfold ascTs; infer_instance

/-- `WeatherLogger.get_all_logs`: load, then
`sorted(data, key=lambda x: x['utc_timestamp'], reverse=True)`; any raise
(unreadable store, or a record missing `utc_timestamp`, which makes the
sort key raise `KeyError`) returns `[]`.  CPython's `sorted` is a stable
sort, and a stable sort with respect to a total preorder is unique, so it
is modelled by the stable `List.insertionSort` with the descending-key
preorder (`reverse=True` keeps ties in original order). -/
def get_all_logs (file : FileState) : List Entry :=
  match file with
  | .bad => []
  | .good data =>
      if data.all (fun e => e.utc_timestamp.isSome) then
        data.insertionSort descTs
      else []

/-- `WeatherLogger._save_weather_data`: read (unreadable means `data = []`),
append, rewrite. -/
def save_weather_data (file : FileState) (w : Entry) : FileState :=
  .good (dataOf file ++ [w])

/-- Python `round` at 2 decimals, over exact rationals. -/
def round2 (q : ℚ) : ℚ := (⌊q * 100 + 1 / 2⌋ : ℚ) / 100

/-- The `city_temps` dict update of `get_city_avg_temp`:
`if city not in city_temps: city_temps[city] = []` then
`city_temps[city].append(temp)`, on an insertion-ordered association
list. -/
def addTemp : List (String × List ℚ) → String → ℚ → List (String × List ℚ)
  | [], k, t => [(k, [t])]
  | (k', ts) :: m, k, t =>
      if k' = k then (k', ts ++ [t]) :: m else (k', ts) :: addTemp m k t

/-- The grouping loop of `get_city_avg_temp` over the loaded logs. -/
def city_temps (logs : List Entry) : List (String × List ℚ) :=
  logs.foldl (fun m e => addTemp m e.city e.temperature) []

/-- `WeatherLogger.get_city_avg_temp`: group by the exact stored city
string, then average each group and round to 2 decimals. -/
def get_city_avg_temp (file : FileState) : List (String × ℚ) :=
  (city_temps (get_all_logs file)).map
    (fun p => (p.1, round2 (p.2.sum / (p.2.length : ℚ))))

/-- Python `max(logs, key=lambda x: x['temperature'])`: the first record,
improved only on strictly greater temperature. -/
def hottest_of : List Entry → Option Entry
  | [] => none
  | b :: rest =>
      some (rest.foldl (fun cur x => if cur.temperature < x.temperature then x else cur) b)

/-- Python `min(logs, key=lambda x: x['temperature'])`. -/
def coldest_of : List Entry → Option Entry
  | [] => none
  | b :: rest =>
      some (rest.foldl (fun cur x => if x.temperature < cur.temperature then x else cur) b)

/-- The `last_24h` list comprehension of `get_hottest_coldest_cities`:
parses every record's timestamp; one missing or unparsable timestamp
raises out of the whole comprehension (`none`). -/
def filterLast24h (parseIso : List Char → Option ℤ) (cutoff : ℤ) :
    List Entry → Option (List Entry)
  | [] => some []
  | e :: rest =>
      match entryT parseIso e with
      | none => none
      | some t =>
          match filterLast24h parseIso cutoff rest with
          | none => none
          | some fs => some (if cutoff < t then e :: fs else fs)

/-- `WeatherLogger.get_hottest_coldest_cities(last_24h)`, evaluated with
the current instant `now`; the outer `none` models an exception escaping
to the caller (only possible from the `last_24h` comprehension). -/
def get_hottest_coldest_cities (parseIso : List Char → Option ℤ)
    (file : FileState) (last24h : Bool) (now : ℤ) :
    Option (Option Entry × Option Entry) :=
  let logs := get_all_logs file
  if last24h then
    match filterLast24h parseIso (now - hoursToSec 24) logs with
    | none => none
    | some fl => some (hottest_of fl, coldest_of fl)
  else
    some (hottest_of logs, coldest_of logs)

/-- The filter-and-sort prefix of `WeatherLogger.plot_temp`: keep the
case-insensitive matches, then `city_logs.sort(key=lambda x:
x['utc_timestamp'])` (stable ascending by the timestamp string). -/
def series_for_location (file : FileState) (city : String) : List Entry :=
  let logs := get_all_logs file
  let city_logs := logs.filter (fun e => decide (lowerData e.city = lowerData city))
  city_logs.insertionSort ascTs

/-- `WeatherLogger.fetch_and_log_weather(cities)` with the network
modelled by `fetch : String → Option Entry` (`none` = failed fetch, as
`_fetch_weather_data` returns `None` on any error).  Partition against
the initial store with one shared `now`; `asyncio.gather` yields results
in task order; each successful result is appended immediately. -/
def fetch_and_log_weather (parseIso : List Char → Option ℤ)
    (fetch : String → Option Entry) (file : FileState)
    (cities : List String) (now : ℤ) : FileState × List Entry :=
  let valid := (cities.map pyStrip).filter
    (fun c => !(is_duplicate_entry parseIso file c now))
  (valid.map fetch).foldl
    (fun acc r =>
      match r with
      | some w => (save_weather_data acc.1 w, acc.2 ++ [w])
      | none => acc)
    (file, [])

/-- Modelled from the spec (§4.2, §8): `is_recently_logged(loc, t, w)` is
true iff some stored observation for `loc` (case-insensitive) has
`observed_at_utc` in the half-open interval `(t-w, t]`; records whose
timestamp is missing or unparsable count as non-matching. -/
def spec_recently_logged (parseIso : List Char → Option ℤ)
    (data : List Entry) (city : String) (t w : ℤ) : Bool :=
  data.any (fun e =>
    decide (lowerData e.city = lowerData city) &&
    (match entryT parseIso e with
     | none => false
     | some ts => decide (t - w < ts ∧ ts ≤ t)))

/-- The first element attaining the maximum of `key`, the spec reading of
"maximum temperature, ties by first-encountered". -/
def firstBest (key : Entry → ℚ) (l : List Entry) : Option Entry :=
  l.find? (fun e => l.all (fun x => decide (key x ≤ key e)))

/-- A concrete model of `datetime.fromisoformat` for witnesses: accepts
non-empty strings of decimal digits, as an integer instant. -/
def digitsToInt? (l : List Char) : Option ℤ :=
  if l ≠ [] ∧ l.all (fun c => 48 ≤ c.toNat ∧ c.toNat ≤ 57) then
    some (l.foldl (fun n c => 10 * n + ((c.toNat : ℤ) - 48)) 0)
  else none

/-- The shared shape of Python `max`/`min` with a key function: start
from the first element and replace only on strict improvement of the
key (so ties keep the first-encountered element). -/
def foldBest (key : Entry → ℚ) (b : Entry) (l : List Entry) : Entry :=
  l.foldl (fun cur x => if key cur < key x then x else cur) b

/-! ### Concrete data for witnesses and counterexamples -/

/-- A record whose timestamp (999) lies in the future of query time 0. -/
def wFuture : Entry := ⟨"Paris", 20, "clear", 50, some "999", "L"⟩

/-- A well-formed record, timestamp 9000. -/
def wGood : Entry := ⟨"Paris", 20, "clear", 50, some "9000", "L"⟩

/-- A record whose timestamp does not parse. -/
def wBadTs : Entry := ⟨"Paris", 20, "clear", 50, some "XYZ", "L"⟩

/-- A well-formed record, timestamp 995. -/
def wRecent : Entry := ⟨"Paris", 21, "rain", 60, some "995", "L"⟩

/-- A record whose `utc_timestamp` field is missing. -/
def wNoTs : Entry := ⟨"London", 10, "fog", 55, none, "L"⟩

/-- A well-formed record, timestamp 1. -/
def wOld : Entry := ⟨"Oslo", 5, "snow", 80, some "1", "L"⟩

/-- A Paris record at instant 9 (timestamp string "9"). -/
def p9 : Entry := ⟨"Paris", 7, "mist", 40, some "9", "L"⟩

/-- A Paris record at instant 10 (timestamp string "10"): later than `p9`
chronologically, but lexicographically smaller. -/
def p10 : Entry := ⟨"Paris", 8, "haze", 41, some "10", "L"⟩

/-! ### Order properties of the CPython string comparison -/

theorem lexLe_refl (l : List Char) : lexLe l l = true := by
  induction l with
  | nil => rfl
  | cons a as ih => simp [lexLe, ih]

theorem lexLe_total (a b : List Char) : lexLe a b = true ∨ lexLe b a = true := by
  induction a generalizing b with
  | nil => left; rfl
  | cons x xs ih =>
    cases b with
    | nil => right; rfl
    | cons y ys =>
      rcases Nat.lt_trichotomy x.toNat y.toNat with h | h | h
      · left; simp [lexLe, h]
      · rcases ih ys with h' | h'
        · left; simp [lexLe, h, h']
        · right; simp [lexLe, h.symm, h']
      · right; simp [lexLe, h]

theorem lexLe_trans (a b c : List Char) (hab : lexLe a b = true)
    (hbc : lexLe b c = true) : lexLe a c = true := by
  induction a generalizing b c with
  | nil => rfl
  | cons x xs ih =>
    cases b with
    | nil => simp [lexLe] at hab
    | cons y ys =>
      cases c with
      | nil => simp [lexLe] at hbc
      | cons z zs =>
        simp only [lexLe] at hab hbc ⊢
        rcases Nat.lt_trichotomy x.toNat y.toNat with h1 | h1 | h1
        · rcases Nat.lt_trichotomy y.toNat z.toNat with h2 | h2 | h2
          · simp [Nat.lt_trans h1 h2]
          · simp [h2 ▸ h1]
          · rw [if_neg (Nat.lt_asymm h2), if_pos h2] at hbc
            exact absurd hbc (by simp)
        · rw [if_neg (by omega), if_neg (by omega)] at hab
          rcases Nat.lt_trichotomy y.toNat z.toNat with h2 | h2 | h2
          · simp [show x.toNat < z.toNat by omega]
          · rw [if_neg (by omega), if_neg (by omega)] at hbc
            rw [if_neg (by omega), if_neg (by omega)]
            exact ih ys zs hab hbc
          · rw [if_neg (Nat.lt_asymm h2), if_pos h2] at hbc
            exact absurd hbc (by simp)
        · rw [if_neg (Nat.lt_asymm h1), if_pos h1] at hab
          exact absurd hab (by simp)

instance : IsTotal Entry descTs :=
  ⟨fun a b => (lexLe_total (tsKey b) (tsKey a)).imp id id⟩

instance : IsTrans Entry descTs :=
  ⟨fun _ _ _ hab hbc => lexLe_trans _ _ _ hbc hab⟩

instance : IsTotal Entry ascTs :=
  ⟨fun a b => (lexLe_total (tsKey a) (tsKey b)).imp id id⟩

instance : IsTrans Entry ascTs :=
  ⟨fun _ _ _ hab hbc => lexLe_trans _ _ _ hab hbc⟩

/-! ### Basic facts about the store operations -/

theorem get_all_logs_bad : get_all_logs .bad = [] := rfl

theorem get_all_logs_good_perm (data : List Entry)
    (h : ∀ e ∈ data, e.utc_timestamp.isSome) :
    (get_all_logs (.good data)).Perm data := by
  simp only [get_all_logs]
  rw [if_pos (by simpa [List.all_eq_true] using h)]
  exact List.perm_insertionSort descTs data

theorem get_all_logs_sorted (file : FileState) :
    List.Sorted descTs (get_all_logs file) := by
  match file with
  | .bad => exact List.sorted_nil
  | .good data =>
    simp only [get_all_logs]
    by_cases h : data.all (fun e => e.utc_timestamp.isSome)
    · rw [if_pos h]; exact List.sorted_insertionSort descTs data
    · rw [if_neg h]; exact List.sorted_nil

theorem get_all_logs_missing_ts (data : List Entry)
    (h : ∃ e ∈ data, e.utc_timestamp = none) :
    get_all_logs (.good data) = [] := by
  simp only [get_all_logs]
  rw [if_neg]
  simp only [List.all_eq_true, not_forall]
  obtain ⟨e, he, hnone⟩ := h
  exact ⟨e, he, by simp [hnone]⟩

theorem dataOf_save (file : FileState) (w : Entry) :
    dataOf (save_weather_data file w) = dataOf file ++ [w] := rfl

/-! ### The deduplication scan -/

theorem dupScan_nil (parseIso : List Char → Option ℤ) (cl : List Char)
    (cutoff : ℤ) : dupScan parseIso cl cutoff [] = false := rfl

theorem dupScan_cons (parseIso : List Char → Option ℤ) (cl : List Char)
    (cutoff : ℤ) (e : Entry) (rest : List Entry) :
    dupScan parseIso cl cutoff (e :: rest) =
      if lowerData e.city = cl then
        match entryT parseIso e with
        | none => false
        | some t => if cutoff < t then true else dupScan parseIso cl cutoff rest
      else dupScan parseIso cl cutoff rest := rfl

theorem dupScan_abort (parseIso : List Char → Option ℤ) (cl : List Char)
    (cutoff : ℤ) (pre post : List Entry) (e : Entry)
    (hm : lowerData e.city = cl)
    (hb : entryT parseIso e = none) :
    dupScan parseIso cl cutoff (pre ++ e :: post) = dupScan parseIso cl cutoff pre := by
  induction pre with
  | nil =>
    rw [List.nil_append, dupScan_cons, dupScan_nil, if_pos hm, hb]
  | cons p pre ih =>
    rw [List.cons_append, dupScan_cons, dupScan_cons]
    by_cases hp : lowerData p.city = cl
    · simp only [if_pos hp]
      cases het : entryT parseIso p with
      | none => rfl
      | some t =>
        by_cases ht : cutoff < t
        · simp [ht]
        · simp only [if_neg ht]
          exact ih
    · simp only [if_neg hp]
      exact ih

theorem dupScan_iff (parseIso : List Char → Option ℤ) (cl : List Char)
    (cutoff : ℤ) (data : List Entry)
    (h : ∀ e ∈ data, lowerData e.city = cl → (entryT parseIso e).isSome) :
    dupScan parseIso cl cutoff data = true ↔
      ∃ e ∈ data, lowerData e.city = cl ∧
        ∃ ts, entryT parseIso e = some ts ∧ cutoff < ts := by
  induction data with
  | nil => simp [dupScan_nil]
  | cons e rest ih =>
    have ih' := ih (fun x hx => h x (List.mem_cons_of_mem e hx))
    rw [dupScan_cons]
    by_cases hm : lowerData e.city = cl
    · have hsome := h e (List.mem_cons_self e rest) hm
      cases het : entryT parseIso e with
      | none => rw [het] at hsome; simp at hsome
      | some t =>
        simp only [if_pos hm]
        by_cases ht : cutoff < t
        · simp only [if_pos ht, true_iff]
          exact ⟨e, List.mem_cons_self e rest, hm, t, het, ht⟩
        · simp only [if_neg ht]
          rw [ih']
          constructor
          · rintro ⟨x, hx, hxm, ts, hxts, hxlt⟩
            exact ⟨x, List.mem_cons_of_mem e hx, hxm, ts, hxts, hxlt⟩
          · rintro ⟨x, hx, hxm, ts, hxts, hxlt⟩
            rcases List.mem_cons.mp hx with rfl | hx'
            · rw [het] at hxts
              cases hxts
              exact absurd hxlt ht
            · exact ⟨x, hx', hxm, ts, hxts, hxlt⟩
    · simp only [if_neg hm]
      rw [ih']
      constructor
      · rintro ⟨x, hx, hxm, ts, hxts, hxlt⟩
        exact ⟨x, List.mem_cons_of_mem e hx, hxm, ts, hxts, hxlt⟩
      · rintro ⟨x, hx, hxm, ts, hxts, hxlt⟩
        rcases List.mem_cons.mp hx with rfl | hx'
        · exact absurd hxm hm
        · exact ⟨x, hx', hxm, ts, hxts, hxlt⟩

/-! ### C1: the deduplication window -/

/-- C1, counterexample: `_is_duplicate_entry` has no upper bound at the
query time.  A stored observation at instant 999, strictly after the
query time 0, makes the check return `true`, while no stored observation
lies in the claimed window `(0 - 2h, 0]`. -/
theorem is_duplicate_entry_counterexample_future :
    is_duplicate_entry digitsToInt? (.good [wFuture]) "Paris" 0 = true ∧
    spec_recently_logged digitsToInt? [wFuture] "Paris" 0 (hoursToSec 2) = false := by
  decide

/-- C1, amended: provided every stored record whose location matches the
query case-insensitively has a present and parsable `utc_timestamp`,
`_is_duplicate_entry(loc, t)` returns `true` iff some matching record has
`observed_at_utc` strictly after `t - 2h` — a lower bound only, with no
upper bound at `t`. -/
theorem is_duplicate_entry_lower_bound_iff (parseIso : List Char → Option ℤ)
    (data : List Entry) (city : String) (t : ℤ)
    (h : ∀ e ∈ data, lowerData e.city = lowerData city →
      (entryT parseIso e).isSome) :
    is_duplicate_entry parseIso (.good data) city t = true ↔
      ∃ e ∈ data, lowerData e.city = lowerData city ∧
        ∃ ts, entryT parseIso e = some ts ∧ t - hoursToSec 2 < ts :=
  dupScan_iff parseIso (lowerData city) (t - hoursToSec 2) data h

theorem is_duplicate_entry_lower_bound_iff_witness :
    (∀ e ∈ [wGood], lowerData e.city = lowerData "paris" →
      (entryT digitsToInt? e).isSome) ∧
    (is_duplicate_entry digitsToInt? (.good [wGood]) "paris" 10000 = true ↔
      ∃ e ∈ [wGood], lowerData e.city = lowerData "paris" ∧
        ∃ ts, entryT digitsToInt? e = some ts ∧ 10000 - hoursToSec 2 < ts) :=
  ⟨by decide, is_duplicate_entry_lower_bound_iff digitsToInt? [wGood] "paris" 10000 (by decide)⟩

/-! ### C2: malformed timestamps in the dedup scan -/

/-- C2, counterexample: a malformed timestamp in a matching stored record
aborts the scan.  The first Paris record's timestamp does not parse, so
the check returns `false` even though the second Paris record (instant
995) lies within the 2-hour window before query time 1000. -/
theorem dedup_malformed_counterexample :
    is_duplicate_entry digitsToInt? (.good [wBadTs, wRecent]) "Paris" 1000 = false ∧
    spec_recently_logged digitsToInt? [wBadTs, wRecent] "Paris" 1000 (hoursToSec 2) = true := by
  decide

/-- C2, amended: the `try/except` of `_is_duplicate_entry` wraps the whole
loop, so the first case-insensitively matching record whose timestamp is
missing or unparsable ends the scan: every record after it is ignored
(the result is as if the history stopped just before that record), and
the exception never propagates to the caller. -/
theorem dedup_malformed_aborts_scan (parseIso : List Char → Option ℤ)
    (city : String) (t : ℤ) (pre post : List Entry) (e : Entry)
    (hm : lowerData e.city = lowerData city)
    (hb : entryT parseIso e = none) :
    is_duplicate_entry parseIso (.good (pre ++ e :: post)) city t =
      is_duplicate_entry parseIso (.good pre) city t :=
  dupScan_abort parseIso (lowerData city) (t - hoursToSec 2) pre post e hm hb

theorem dedup_malformed_aborts_scan_witness :
    lowerData wBadTs.city = lowerData "Paris" ∧
    entryT digitsToInt? wBadTs = none ∧
    is_duplicate_entry digitsToInt? (.good ([] ++ wBadTs :: [wRecent])) "Paris" 1000 =
      is_duplicate_entry digitsToInt? (.good []) "Paris" 1000 :=
  ⟨by decide, by decide,
    dedup_malformed_aborts_scan digitsToInt? "Paris" 1000 [] [wRecent] wBadTs
      (by decide) (by decide)⟩

/-! ### C3: totality of load -/

/-- C3, counterexample: a store that is present and parses as a JSON
array, but one of whose records lacks the `utc_timestamp` field, makes
`get_all_logs` return the empty list rather than the full persisted
sequence. -/
theorem load_missing_field_counterexample :
    get_all_logs (.good [wNoTs]) = [] ∧ ([wNoTs] : List Entry) ≠ [] := by
  decide

/-- C3, amended: `get_all_logs` never raises (it is total); an absent,
empty or unparsable resource yields the empty sequence, and when every
persisted record has its `utc_timestamp` field the result is the full
persisted sequence (reordered by the descending sort); a record missing
that field also yields the empty sequence. -/
theorem load_total_spec (data data' : List Entry)
    (h : ∀ e ∈ data, e.utc_timestamp.isSome)
    (h' : ∃ e ∈ data', e.utc_timestamp = none) :
    get_all_logs .bad = [] ∧ (get_all_logs (.good data)).Perm data ∧
    get_all_logs (.good data') = [] :=
  ⟨rfl, get_all_logs_good_perm data h, get_all_logs_missing_ts data' h'⟩

theorem load_total_spec_witness :
    (∀ e ∈ [wGood, wRecent], e.utc_timestamp.isSome) ∧
    (∃ e ∈ [wNoTs], e.utc_timestamp = none) ∧
    (get_all_logs .bad = [] ∧ (get_all_logs (.good [wGood, wRecent])).Perm [wGood, wRecent] ∧
      get_all_logs (.good [wNoTs]) = []) :=
  ⟨by decide, by decide, load_total_spec [wGood, wRecent] [wNoTs] (by decide) (by decide)⟩

/-! ### C7: append followed by load -/

/-- C7, counterexample: `get_all_logs` re-sorts newest first, so the
just-appended observation (with the newest timestamp) comes back first,
not last: after appending `wGood` to a store holding `wOld`, the last
element of `get_all_logs` is `wOld`. -/
theorem append_load_counterexample :
    (get_all_logs (save_weather_data (.good [wOld]) wGood)).getLast? = some wOld ∧
    wOld ≠ wGood := by
  decide

/-- C7, amended: `append(o)` puts `o` last in the persisted sequence
itself, and a subsequent `load()` contains `o` (provided every stored
record, including `o`, has its `utc_timestamp` field) — but positioned by
the descending timestamp sort, not necessarily last. -/
theorem append_then_load (file : FileState) (o : Entry)
    (h : ∀ e ∈ dataOf (save_weather_data file o), e.utc_timestamp.isSome) :
    (dataOf (save_weather_data file o)).getLast? = some o ∧
    o ∈ get_all_logs (save_weather_data file o) := by
  constructor
  · rw [dataOf_save]
    simp
  · have hp := get_all_logs_good_perm (dataOf file ++ [o])
      (by simpa [dataOf_save] using h)
    exact hp.mem_iff.mpr (by simp)

theorem append_then_load_witness :
    (∀ e ∈ dataOf (save_weather_data (.good [wOld]) wGood), e.utc_timestamp.isSome) ∧
    ((dataOf (save_weather_data (.good [wOld]) wGood)).getLast? = some wGood ∧
      wGood ∈ get_all_logs (save_weather_data (.good [wOld]) wGood)) :=
  ⟨by decide, append_then_load (.good [wOld]) wGood (by decide)⟩

/-! ### C10: one malformed record hides the whole history -/

/-- C10: if any stored record lacks its `utc_timestamp` field, the sort
key of `get_all_logs` raises, the blanket `except` returns `[]`, and
every query operation behaves as if the store were empty. -/
theorem malformed_record_hides_history (parseIso : List Char → Option ℤ)
    (data : List Entry) (now : ℤ) (c : String)
    (h : ∃ e ∈ data, e.utc_timestamp = none) :
    get_all_logs (.good data) = [] ∧
    get_city_avg_temp (.good data) = [] ∧
    get_hottest_coldest_cities parseIso (.good data) false now = some (none, none) ∧
    get_hottest_coldest_cities parseIso (.good data) true now = some (none, none) ∧
    series_for_location (.good data) c = [] := by
  have hl := get_all_logs_missing_ts data h
  refine ⟨hl, ?_, ?_, ?_, ?_⟩
  · simp only [get_city_avg_temp, hl]
    rfl
  · simp only [get_hottest_coldest_cities, hl]
    rfl
  · simp only [get_hottest_coldest_cities, hl]
    rfl
  · simp only [series_for_location, hl]
    rfl

theorem malformed_record_hides_history_witness :
    (∃ e ∈ [wGood, wNoTs], e.utc_timestamp = none) ∧
    (get_all_logs (.good [wGood, wNoTs]) = [] ∧
      get_city_avg_temp (.good [wGood, wNoTs]) = [] ∧
      get_hottest_coldest_cities digitsToInt? (.good [wGood, wNoTs]) false 0 = some (none, none) ∧
      get_hottest_coldest_cities digitsToInt? (.good [wGood, wNoTs]) true 0 = some (none, none) ∧
      series_for_location (.good [wGood, wNoTs]) "Paris" = []) :=
  ⟨by decide, malformed_record_hides_history digitsToInt? [wGood, wNoTs] 0 "Paris" (by decide)⟩

/-! ### C4: grouping and averaging -/

theorem find?_addTemp (m : List (String × List ℚ)) (k : String) (t : ℚ) (c : String) :
    (addTemp m k t).find? (fun p => decide (p.1 = c)) =
      if k = c then
        match m.find? (fun p => decide (p.1 = c)) with
        | some p => some (p.1, p.2 ++ [t])
        | none => some (k, [t])
      else m.find? (fun p => decide (p.1 = c)) := by
  induction m with
  | nil =>
    by_cases hkc : k = c
    · simp [addTemp, List.find?, hkc]
    · simp [addTemp, List.find?, hkc]
  | cons q m ih =>
    obtain ⟨k', ts⟩ := q
    rw [show addTemp ((k', ts) :: m) k t
        = if k' = k then (k', ts ++ [t]) :: m else (k', ts) :: addTemp m k t from rfl]
    by_cases hk'k : k' = k
    · rw [if_pos hk'k]
      by_cases hk'c : k' = c
      · have hkc : k = c := hk'k ▸ hk'c
        rw [if_pos hkc,
          List.find?_cons_of_pos _ (by simp [hk'c]),
          List.find?_cons_of_pos _ (by simp [hk'c])]
      · have hkc : ¬ k = c := fun hh => hk'c (hk'k.trans hh)
        rw [if_neg hkc,
          List.find?_cons_of_neg _ (by simp [hk'c]),
          List.find?_cons_of_neg _ (by simp [hk'c])]
    · rw [if_neg hk'k]
      by_cases hk'c : k' = c
      · have hkc : ¬ k = c := fun hh => hk'k (hk'c.trans hh.symm)
        rw [if_neg hkc,
          List.find?_cons_of_pos _ (by simp [hk'c]),
          List.find?_cons_of_pos _ (by simp [hk'c])]
      · rw [List.find?_cons_of_neg _ (by simp [hk'c]),
          List.find?_cons_of_neg _ (by simp [hk'c]), ih]

theorem city_temps_fold_find (logs : List Entry) (c : String) :
    ∀ m : List (String × List ℚ),
    (logs.foldl (fun m e => addTemp m e.city e.temperature) m).find?
        (fun p => decide (p.1 = c)) =
      (match m.find? (fun p => decide (p.1 = c)),
             (logs.filter (fun e => decide (e.city = c))).map Entry.temperature with
       | some p, new => some (p.1, p.2 ++ new)
       | none, new => if new = [] then none else some (c, new)) := by
  induction logs with
  | nil =>
    intro m
    simp only [List.foldl_nil, List.filter_nil, List.map_nil]
    cases m.find? (fun p => decide (p.1 = c)) with
    | none => rfl
    | some p => simp
  | cons e logs ih =>
    intro m
    simp only [List.foldl_cons]
    rw [ih (addTemp m e.city e.temperature), find?_addTemp]
    by_cases hec : e.city = c
    · rw [if_pos hec, List.filter_cons_of_pos (by simp [hec]), List.map_cons]
      cases m.find? (fun p => decide (p.1 = c)) with
      | none =>
        simp only []
        rw [if_neg (by simp)]
        rw [hec]
        cases hnew : (logs.filter (fun e => decide (e.city = c))).map Entry.temperature with
        | nil => simp
        | cons t' ts' => simp
      | some p =>
        simp only [List.append_assoc, List.singleton_append]
    · rw [if_neg hec, List.filter_cons_of_neg (by simp [hec])]

theorem get_city_avg_temp_bad : get_city_avg_temp .bad = [] := rfl

/-- C4: `get_city_avg_temp` groups by the exact stored city string; the
entry for city `c` is present iff some observation has that exact city,
and its value is the arithmetic mean of that city's temperatures rounded
to 2 decimals; the empty (or unreadable) store yields the empty mapping.
Stated for stores whose records are complete observations (every record
has its `utc_timestamp` field, as the data-model invariant requires). -/
theorem average_by_location_spec (data : List Entry) (c : String)
    (h : ∀ e ∈ data, e.utc_timestamp.isSome) :
    get_city_avg_temp .bad = [] ∧
    (get_city_avg_temp (.good data)).find? (fun p => decide (p.1 = c)) =
      (if (data.filter (fun e => decide (e.city = c))).map Entry.temperature = [] then none
       else some (c, round2
         ((((data.filter (fun e => decide (e.city = c))).map Entry.temperature).sum) /
          ((((data.filter (fun e => decide (e.city = c))).map Entry.temperature).length : ℚ))))) := by
  refine ⟨rfl, ?_⟩
  have hperm : (get_all_logs (.good data)).Perm data := get_all_logs_good_perm data h
  have hfperm : ((get_all_logs (.good data)).filter (fun e => decide (e.city = c))).Perm
      (data.filter (fun e => decide (e.city = c))) := hperm.filter _
  have hmperm : (((get_all_logs (.good data)).filter (fun e => decide (e.city = c))).map
      Entry.temperature).Perm
      ((data.filter (fun e => decide (e.city = c))).map Entry.temperature) := hfperm.map _
  simp only [get_city_avg_temp, city_temps]
  rw [List.find?_map, Function.comp_def]
  rw [city_temps_fold_find (get_all_logs (.good data)) c []]
  simp only [List.find?_nil]
  by_cases hnil : (data.filter (fun e => decide (e.city = c))).map Entry.temperature = []
  · rw [if_pos (List.Perm.eq_nil (hnil ▸ hmperm)), if_pos hnil]
    rfl
  · have hnil' : ((get_all_logs (.good data)).filter
        (fun e => decide (e.city = c))).map Entry.temperature ≠ [] :=
      fun hh => hnil (List.Perm.eq_nil (hh ▸ hmperm.symm))
    rw [if_neg hnil', if_neg hnil]
    simp only [Option.map_some']
    rw [hmperm.sum_eq, hmperm.length_eq]

theorem average_by_location_spec_witness :
    (∀ e ∈ [p9, wOld, p10], e.utc_timestamp.isSome) ∧
    (get_city_avg_temp .bad = [] ∧
      (get_city_avg_temp (.good [p9, wOld, p10])).find? (fun p => decide (p.1 = "Paris")) =
        (if ([p9, wOld, p10].filter (fun e => decide (e.city = "Paris"))).map Entry.temperature = []
         then none
         else some ("Paris", round2
           (((([p9, wOld, p10].filter (fun e => decide (e.city = "Paris"))).map
                Entry.temperature).sum) /
            (((([p9, wOld, p10].filter (fun e => decide (e.city = "Paris"))).map
                Entry.temperature).length : ℚ)))))) :=
  ⟨by decide, average_by_location_spec [p9, wOld, p10] "Paris" (by decide)⟩

/-! ### C9: side effects of the ingestion pipeline -/

theorem fetch_fold_effects (rs : List (Option Entry)) :
    ∀ (st : FileState) (acc : List Entry),
    (rs.foldl (fun acc r =>
        match r with
        | some w => (save_weather_data acc.1 w, acc.2 ++ [w])
        | none => acc) (st, acc)).2 = acc ++ rs.filterMap id ∧
    dataOf (rs.foldl (fun acc r =>
        match r with
        | some w => (save_weather_data acc.1 w, acc.2 ++ [w])
        | none => acc) (st, acc)).1 = dataOf st ++ rs.filterMap id := by
  induction rs with
  | nil =>
    intro st acc
    simp
  | cons r rs ih =>
    intro st acc
    cases r with
    | none =>
      simp only [List.foldl_cons]
      rw [show List.filterMap id (none :: rs) = List.filterMap id rs from rfl]
      exact ih st acc
    | some w =>
      simp only [List.foldl_cons]
      rw [show List.filterMap id (some w :: rs) = w :: List.filterMap id rs from rfl]
      obtain ⟨h2, h1⟩ := ih (save_weather_data st w) (acc ++ [w])
      refine ⟨?_, ?_⟩
      · rw [h2, List.append_assoc, List.singleton_append]
      · rw [h1, dataOf_save, List.append_assoc, List.singleton_append]

/-- C9: each successful fetch appends exactly the fetched observation,
in result order; skipped (dedup) and failed locations cause no append;
the returned list is exactly the appended suffix of the store. -/
theorem fetch_and_log_effects (parseIso : List Char → Option ℤ)
    (fetch : String → Option Entry) (file : FileState)
    (cities : List String) (now : ℤ) :
    (fetch_and_log_weather parseIso fetch file cities now).2 =
      ((cities.map pyStrip).filter
        (fun c => !(is_duplicate_entry parseIso file c now))).filterMap fetch ∧
    dataOf (fetch_and_log_weather parseIso fetch file cities now).1 =
      dataOf file ++
      ((cities.map pyStrip).filter
        (fun c => !(is_duplicate_entry parseIso file c now))).filterMap fetch := by
  obtain ⟨h2, h1⟩ := fetch_fold_effects
    ((((cities.map pyStrip).filter
      (fun c => !(is_duplicate_entry parseIso file c now))).map fetch)) file []
  rw [List.filterMap_map, Function.id_comp] at h2 h1
  rw [List.nil_append] at h2
  exact ⟨h2, h1⟩

/-! ### C5: hottest and coldest -/

theorem foldBest_spec (key : Entry → ℚ) (l : List Entry) :
    ∀ b : Entry,
    (foldBest key b l = b ∧ ∀ x ∈ l, key x ≤ key b) ∨
    (∃ l₁ r l₂, l = l₁ ++ r :: l₂ ∧ foldBest key b l = r ∧ key b < key r ∧
      (∀ x ∈ l₁, key x < key r) ∧ (∀ x ∈ l₂, key x ≤ key r)) := by
  induction l with
  | nil =>
    intro b
    left
    exact ⟨rfl, by simp⟩
  | cons x l ih =>
    intro b
    by_cases hx : key b < key x
    · have hfold : foldBest key b (x :: l) = foldBest key x l := by
        simp [foldBest, List.foldl_cons, hx]
      rcases ih x with ⟨heq, hall⟩ | ⟨l₁, r, l₂, hl, heq, hxr, h₁, h₂⟩
      · right
        exact ⟨[], x, l, rfl, by rw [hfold, heq], hx, by simp, hall⟩
      · right
        refine ⟨x :: l₁, r, l₂, by rw [hl, List.cons_append], by rw [hfold, heq], lt_trans hx hxr, ?_, h₂⟩
        intro y hy
        rcases List.mem_cons.mp hy with rfl | hy'
        · exact hxr
        · exact h₁ y hy'
    · have hfold : foldBest key b (x :: l) = foldBest key b l := by
        simp [foldBest, List.foldl_cons, hx]
      rcases ih b with ⟨heq, hall⟩ | ⟨l₁, r, l₂, hl, heq, hbr, h₁, h₂⟩
      · left
        refine ⟨by rw [hfold, heq], ?_⟩
        intro y hy
        rcases List.mem_cons.mp hy with rfl | hy'
        · exact not_lt.mp hx
        · exact hall y hy'
      · right
        refine ⟨x :: l₁, r, l₂, by rw [hl, List.cons_append], by rw [hfold, heq], hbr, ?_, h₂⟩
        intro y hy
        rcases List.mem_cons.mp hy with rfl | hy'
        · exact lt_of_le_of_lt (not_lt.mp hx) hbr
        · exact h₁ y hy'

theorem find?_first_sat (p : Entry → Bool) (l₁ : List Entry) (r : Entry)
    (l₂ : List Entry) (h₁ : ∀ x ∈ l₁, p x = false) (hr : p r = true) :
    (l₁ ++ r :: l₂).find? p = some r := by
  induction l₁ with
  | nil => simpa using List.find?_cons_of_pos _ hr
  | cons x l₁ ih =>
    rw [List.cons_append,
      List.find?_cons_of_neg _ (by simp [h₁ x (List.mem_cons_self x l₁)])]
    exact ih (fun y hy => h₁ y (List.mem_cons_of_mem x hy))

theorem foldBest_eq_firstBest (key : Entry → ℚ) (b : Entry) (l : List Entry) :
    some (foldBest key b l) = firstBest key (b :: l) := by
  rcases foldBest_spec key l b with ⟨heq, hall⟩ | ⟨l₁, r, l₂, hl, heq, hbr, h₁, h₂⟩
  · rw [heq]
    unfold firstBest
    rw [List.find?_cons_of_pos]
    simp only [List.all_eq_true, decide_eq_true_eq]
    intro x hx
    rcases List.mem_cons.mp hx with rfl | hx'
    · exact le_refl _
    · exact hall x hx'
  · subst hl
    rw [heq]
    unfold firstBest
    refine (find?_first_sat _ (b :: l₁) r l₂ ?_ ?_).symm
    · intro x hx
      have hxr : key x < key r := by
        rcases List.mem_cons.mp hx with rfl | hx'
        · exact hbr
        · exact h₁ x hx'
      simp only [List.all_eq_false, decide_eq_true_eq]
      refine ⟨r, ?_, ?_⟩
      · exact List.mem_cons_of_mem b (List.mem_append_right l₁ (List.mem_cons_self r l₂))
      · simp [not_le.mpr hxr]
    · simp only [List.all_eq_true, decide_eq_true_eq]
      intro y hy
      rcases List.mem_cons.mp hy with rfl | hy'
      · exact le_of_lt hbr
      · rcases List.mem_append.mp hy' with hy₁ | hy₂
        · exact le_of_lt (h₁ y hy₁)
        · rcases List.mem_cons.mp hy₂ with rfl | hy₃
          · exact le_refl _
          · exact h₂ y hy₃

theorem hottest_of_eq (l : List Entry) :
    hottest_of l = firstBest Entry.temperature l := by
  cases l with
  | nil => rfl
  | cons b rest => exact foldBest_eq_firstBest Entry.temperature b rest

theorem coldest_of_eq (l : List Entry) :
    coldest_of l = firstBest (fun e => -e.temperature) l := by
  cases l with
  | nil => rfl
  | cons b rest =>
    have hfun : (fun (cur x : Entry) => if x.temperature < cur.temperature then x else cur)
        = (fun (cur x : Entry) =>
            if (fun e : Entry => -e.temperature) cur < (fun e : Entry => -e.temperature) x
            then x else cur) := by
      funext cur x
      by_cases hc : x.temperature < cur.temperature
      · rw [if_pos hc, if_pos (neg_lt_neg_iff.mpr hc)]
      · rw [if_neg hc, if_neg (fun hh => hc (neg_lt_neg_iff.mp hh))]
    show some (rest.foldl
      (fun cur x => if x.temperature < cur.temperature then x else cur) b) = _
    rw [hfun]
    exact foldBest_eq_firstBest (fun e => -e.temperature) b rest

theorem filterLast24h_eq (parseIso : List Char → Option ℤ) (cutoff : ℤ)
    (l : List Entry) (tsOf : Entry → ℤ)
    (hts : ∀ e ∈ l, entryT parseIso e = some (tsOf e)) :
    filterLast24h parseIso cutoff l =
      some (l.filter (fun e => decide (cutoff < tsOf e))) := by
  induction l with
  | nil => rfl
  | cons e rest ih =>
    have he := hts e (List.mem_cons_self e rest)
    rw [show filterLast24h parseIso cutoff (e :: rest)
        = (match entryT parseIso e with
           | none => none
           | some t =>
               match filterLast24h parseIso cutoff rest with
               | none => none
               | some fs => some (if cutoff < t then e :: fs else fs)) from rfl,
      he, ih (fun x hx => hts x (List.mem_cons_of_mem e hx))]
    by_cases hc : cutoff < tsOf e
    · rw [List.filter_cons_of_pos (by simp [hc])]
      simp [hc]
    · rw [List.filter_cons_of_neg (by simp [hc])]
      simp [hc]

/-- C5, counterexample, two failure modes of the windowed query.  First:
a stored record whose timestamp does not parse makes
`get_hottest_coldest_cities` raise out of the list comprehension
(modelled by `none`) instead of returning any `(hottest, coldest)` pair.
Second: the window filter has a lower bound only (`> cutoff_time`, no
upper bound at the current instant), so a record at instant 999 —
strictly after the query instant 0, hence not within the trailing 24
hours before it — is nevertheless considered and returned as both
hottest and coldest. -/
theorem extremes_window_counterexample :
    (get_hottest_coldest_cities digitsToInt? (.good [wBadTs]) true 0 = none ∧
      (none : Option (Option Entry × Option Entry)) ≠ some (none, none)) ∧
    (get_hottest_coldest_cities digitsToInt? (.good [wFuture]) true 0 =
        some (some wFuture, some wFuture) ∧
      entryT digitsToInt? wFuture = some 999 ∧ ¬ ((999 : ℤ) ≤ 0)) := by
  decide

/-- C5, amended: provided every loaded record's timestamp parses,
`get_hottest_coldest_cities` returns the pair of the first record
attaining the maximum temperature and the first attaining the minimum
(`firstBest` with negated key), over the full history without the window
option and, with it, over the records whose `observed_at_utc` is
strictly after `now - 24h` — a lower bound only, with no upper bound at
the current instant, so a future-timestamped record is also considered
(the same one-sided windowing as the dedup check).  Both components are
`none` exactly when the (restricted) history is empty. -/
theorem extremes_spec (parseIso : List Char → Option ℤ) (file : FileState)
    (now : ℤ) (tsOf : Entry → ℤ)
    (hts : ∀ e ∈ get_all_logs file, entryT parseIso e = some (tsOf e)) :
    get_hottest_coldest_cities parseIso file false now =
      some (firstBest Entry.temperature (get_all_logs file),
            firstBest (fun e => -e.temperature) (get_all_logs file)) ∧
    get_hottest_coldest_cities parseIso file true now =
      some (firstBest Entry.temperature
              ((get_all_logs file).filter (fun e => decide (now - hoursToSec 24 < tsOf e))),
            firstBest (fun e => -e.temperature)
              ((get_all_logs file).filter (fun e => decide (now - hoursToSec 24 < tsOf e)))) := by
  constructor
  · show some (hottest_of (get_all_logs file), coldest_of (get_all_logs file)) = _
    rw [hottest_of_eq, coldest_of_eq]
  · show (match filterLast24h parseIso (now - hoursToSec 24) (get_all_logs file) with
      | none => none
      | some fl => some (hottest_of fl, coldest_of fl)) = _
    rw [filterLast24h_eq parseIso (now - hoursToSec 24) (get_all_logs file) tsOf hts]
    show some (hottest_of _, coldest_of _) = _
    rw [hottest_of_eq, coldest_of_eq]

theorem extremes_spec_witness :
    (∀ e ∈ get_all_logs (.good [wOld, wRecent]),
      entryT digitsToInt? e = some ((entryT digitsToInt? e).getD 0)) ∧
    (get_hottest_coldest_cities digitsToInt? (.good [wOld, wRecent]) false 86401 =
      some (firstBest Entry.temperature (get_all_logs (.good [wOld, wRecent])),
            firstBest (fun e => -e.temperature) (get_all_logs (.good [wOld, wRecent]))) ∧
    get_hottest_coldest_cities digitsToInt? (.good [wOld, wRecent]) true 86401 =
      some (firstBest Entry.temperature
              ((get_all_logs (.good [wOld, wRecent])).filter
                (fun e => decide (86401 - hoursToSec 24 < (entryT digitsToInt? e).getD 0))),
            firstBest (fun e => -e.temperature)
              ((get_all_logs (.good [wOld, wRecent])).filter
                (fun e => decide (86401 - hoursToSec 24 < (entryT digitsToInt? e).getD 0))))) :=
  ⟨by decide, extremes_spec digitsToInt? (.good [wOld, wRecent]) 86401
    (fun e => (entryT digitsToInt? e).getD 0) (by decide)⟩

/-! ### C8: full history sorted descending -/

/-- C8: for well-formed histories (every record's timestamp present and
parsable, and lexicographic order of the stored timestamp strings
agreeing with chronological order), `get_all_logs` returns the full
history, newest first. -/
theorem all_sorted_desc_spec (parseIso : List Char → Option ℤ)
    (data : List Entry) (tsOf : Entry → ℤ)
    (hts : ∀ e ∈ data, entryT parseIso e = some (tsOf e))
    (hagree : ∀ e1 ∈ data, ∀ e2 ∈ data,
      (lexLe (tsKey e1) (tsKey e2) = true ↔ tsOf e1 ≤ tsOf e2)) :
    (get_all_logs (.good data)).Perm data ∧
    (get_all_logs (.good data)).Pairwise (fun a b => tsOf b ≤ tsOf a) := by
  have hsome : ∀ e ∈ data, e.utc_timestamp.isSome := by
    intro e he
    have h := hts e he
    cases hu : e.utc_timestamp with
    | none => rw [entryT, hu] at h; simp at h
    | some s => rfl
  have hperm := get_all_logs_good_perm data hsome
  refine ⟨hperm, ?_⟩
  have hsorted := get_all_logs_sorted (.good data)
  refine List.Pairwise.imp_of_mem ?_ hsorted
  intro a b ha hb hr
  exact (hagree b (hperm.subset hb) a (hperm.subset ha)).mp hr

theorem all_sorted_desc_spec_witness :
    (∀ e ∈ [wOld, p9, wGood], entryT digitsToInt? e = some ((entryT digitsToInt? e).getD 0)) ∧
    (∀ e1 ∈ [wOld, p9, wGood], ∀ e2 ∈ [wOld, p9, wGood],
      (lexLe (tsKey e1) (tsKey e2) = true ↔
        (entryT digitsToInt? e1).getD 0 ≤ (entryT digitsToInt? e2).getD 0)) ∧
    ((get_all_logs (.good [wOld, p9, wGood])).Perm [wOld, p9, wGood] ∧
      (get_all_logs (.good [wOld, p9, wGood])).Pairwise
        (fun a b => (entryT digitsToInt? b).getD 0 ≤ (entryT digitsToInt? a).getD 0)) :=
  ⟨by decide, by decide,
    all_sorted_desc_spec digitsToInt? [wOld, p9, wGood]
      (fun e => (entryT digitsToInt? e).getD 0) (by decide) (by decide)⟩

/-! ### C6: the per-location series -/

/-- C6, counterexample: `plot_temp` sorts by the timestamp *string*; with
Paris records at instants 9 and 10 (strings "9" and "10"), the series
comes back `[p10, p9]` — not ascending by `observed_at_utc`, because
lexicographic order disagrees with chronological order here. -/
theorem series_lex_counterexample :
    series_for_location (.good [p9, p10]) "paris" = [p10, p9] ∧
    entryT digitsToInt? p9 = some 9 ∧
    entryT digitsToInt? p10 = some 10 ∧
    ¬ ((entryT digitsToInt? p10).getD 0 ≤ (entryT digitsToInt? p9).getD 0) := by
  decide

/-- C6, amended: the series for a location is exactly the stored
observations matching case-insensitively, sorted ascending by the
timestamp string; this is ascending by `observed_at_utc` whenever
lexicographic order of the stored timestamp strings agrees with
chronological order (as with fixed-width ISO-8601 strings). -/
theorem series_for_location_spec (parseIso : List Char → Option ℤ)
    (data : List Entry) (city : String) (tsOf : Entry → ℤ)
    (hts : ∀ e ∈ data, entryT parseIso e = some (tsOf e))
    (hagree : ∀ e1 ∈ data, ∀ e2 ∈ data,
      (lexLe (tsKey e1) (tsKey e2) = true ↔ tsOf e1 ≤ tsOf e2)) :
    (series_for_location (.good data) city).Perm
      (data.filter (fun e => decide (lowerData e.city = lowerData city))) ∧
    (series_for_location (.good data) city).Pairwise
      (fun a b => tsOf a ≤ tsOf b) := by
  have hsome : ∀ e ∈ data, e.utc_timestamp.isSome := by
    intro e he
    have h := hts e he
    cases hu : e.utc_timestamp with
    | none => rw [entryT, hu] at h; simp at h
    | some s => rfl
  have hperm := get_all_logs_good_perm data hsome
  have hfperm : ((get_all_logs (.good data)).filter
      (fun e => decide (lowerData e.city = lowerData city))).Perm
      (data.filter (fun e => decide (lowerData e.city = lowerData city))) :=
    hperm.filter _
  have hsortperm : (series_for_location (.good data) city).Perm
      ((get_all_logs (.good data)).filter
        (fun e => decide (lowerData e.city = lowerData city))) :=
    List.perm_insertionSort ascTs _
  refine ⟨hsortperm.trans hfperm, ?_⟩
  have hsorted : List.Sorted ascTs (series_for_location (.good data) city) :=
    List.sorted_insertionSort ascTs _
  refine List.Pairwise.imp_of_mem ?_ hsorted
  intro a b ha hb hr
  have ha' : a ∈ data :=
    hperm.subset (List.mem_of_mem_filter (hsortperm.subset ha))
  have hb' : b ∈ data :=
    hperm.subset (List.mem_of_mem_filter (hsortperm.subset hb))
  exact (hagree a ha' b hb').mp hr

theorem series_for_location_spec_witness :
    (∀ e ∈ [wOld, p9, wGood], entryT digitsToInt? e = some ((entryT digitsToInt? e).getD 0)) ∧
    (∀ e1 ∈ [wOld, p9, wGood], ∀ e2 ∈ [wOld, p9, wGood],
      (lexLe (tsKey e1) (tsKey e2) = true ↔
        (entryT digitsToInt? e1).getD 0 ≤ (entryT digitsToInt? e2).getD 0)) ∧
    ((series_for_location (.good [wOld, p9, wGood]) "pARIs").Perm
      ([wOld, p9, wGood].filter
        (fun e => decide (lowerData e.city = lowerData "pARIs"))) ∧
    (series_for_location (.good [wOld, p9, wGood]) "pARIs").Pairwise
      (fun a b => (entryT digitsToInt? a).getD 0 ≤ (entryT digitsToInt? b).getD 0)) :=
  ⟨by decide, by decide,
    series_for_location_spec digitsToInt? [wOld, p9, wGood] "pARIs"
      (fun e => (entryT digitsToInt? e).getD 0) (by decide) (by decide)⟩
